import Mathlib

/-!
# Byte and NativeObjectWrapper converters of the JS bridge

Shallow embedding of `jsbridge/src/main/jni/java-types/Byte.cpp` and
`jsbridge/src/main/jni/java-types/NativeObjectWrapper.cpp`, for both engine
backends (Duktape: value stack, QuickJS: value handles).

Conventions
* a `jbyte` is an `Int` in `[-128, 127]`; `static_cast<jbyte>` of an integer is `toJByte`;
* a script number is an IEEE double, embedded as `JsDouble` (finite values as rationals);
* the Duktape value stack is a list whose head is the top of the stack (index `-1`);
* a C++ exception is the `Except.error` component of a result, next to the engine state
  at the point where the exception leaves the function.
-/

namespace JsBridge

/-! ## Shared data model -/

/-- Script number: an IEEE-754 double. Every finite double is a rational, so the finite
values are embedded in `ℚ`; the negative zero and the three non-finite values are
separate constructors. -/
inductive JsDouble where
  | finite (q : ℚ)
  | negZero
  | nan
  | posInf
  | negInf
  deriving DecidableEq

/-- The double whose value is the integer `x`. -/
def JsDouble.ofInt (x : Int) : JsDouble := .finite (x : ℚ)

/-- Smallest value of a 32-bit signed integer (`DUK_INT_MIN`, `INT32_MIN`). -/
def INT_MIN : Int := -2147483648

/-- Largest value of a 32-bit signed integer (`DUK_INT_MAX`, `INT32_MAX`). -/
def INT_MAX : Int := 2147483647

/-- C conversion of a finite double to an integer: truncation toward zero. -/
def truncToInt (q : ℚ) : Int := Int.tdiv q.num (q.den : Int)

/-- Narrowing conversion of an integer to `jbyte` (8-bit two's complement):
`static_cast<jbyte>(x)`. -/
def toJByte (x : Int) : Int := (x + 128) % 256 - 128

/-- Identity of a host (Java) object. -/
abbrev JObject := Nat

/-- Type `JniLocalRef<jobject>`: a host reference, `none` being the null reference. -/
abbrev JniLocalRef := Option JObject

/-- Modelled from the spec: `JValue` is declared outside the two source files; it is the
tagged union of section 3, here with the variants the two converters build:
`JValue()`, `JValue(jbyte)`, `JValue(JArrayLocalRef<jbyte>)` and
`JValue(JniLocalRef<jobject>)`. -/
inductive JValue where
  | noValue
  | byte (b : Int)
  | byteArray (elements : List Int)
  | localRef (ref : JniLocalRef)
  deriving DecidableEq

/-- Modelled from the spec: `JValue::getByte()` reads the byte member of the union; for
another variant the zero-initialised member is read. -/
def JValue.getByte : JValue → Int
  | .byte b => b
  | _ => 0

/-- Modelled from the spec: `JValue::getLocalRef()` gives the held host reference, the
null reference for a variant without one. -/
def JValue.getLocalRef : JValue → JniLocalRef
  | .localRef r => r
  | _ => none

/-- Array store `a[i] = v` on the element list of a script array: positions between the
old length and `i` become holes, which read back as `hole` (`undefined`). -/
def arraySet {α : Type} (hole : α) (elems : List α) (i : Nat) (v : α) : List α :=
  if i < elems.length then elems.set i v
  else elems ++ List.replicate (i - elems.length) hole ++ [v]

/-- C++ exceptions leaving a converter. -/
inductive Failure where
  /-- Exception `std::invalid_argument`: the TypeMismatch failure. -/
  | invalidArgument
  /-- Exception `JniException`: host-side failure or pending host exception. -/
  | jniException
  /-- Error raised by the Duktape API itself (invalid stack index, invalid pop count). -/
  | dukError
  deriving DecidableEq

/-- Is the failure caught by `catch (const std::exception &)`? Duktape's own errors are
not C++ standard exceptions. -/
def Failure.isStdException : Failure → Bool
  | .invalidArgument => true
  | .jniException => true
  | .dukError => false

/-! ## Duktape backend: engine primitives -/

/-- Script value on the Duktape value stack. An array is given by its elements. -/
inductive DukValue where
  | undefined
  | null
  | boolean (b : Bool)
  | number (d : JsDouble)
  | string (s : String)
  | object (id : Nat)
  | array (elems : List DukValue)

/-- Value stack, top first: the head is index `-1`, the next one index `-2`. -/
abbrev DukStack := List DukValue

/-- Result of a stack-based operation: value or exception, and the stack left behind. -/
abbrev DukResult (α : Type) := Except Failure α × DukStack

/-- Engine call `duk_is_number(ctx, -1)`; false when the index is invalid. -/
def duk_is_number : DukStack → Bool
  | .number _ :: _ => true
  | _ => false

/-- Engine call `duk_is_null_or_undefined(ctx, -1)`. -/
def duk_is_null_or_undefined : DukStack → Bool
  | .null :: _ => true
  | .undefined :: _ => true
  | _ => false

/-- Engine call `duk_is_null(ctx, -1)`. -/
def duk_is_null : DukStack → Bool
  | .null :: _ => true
  | _ => false

/-- Engine call `duk_is_undefined(ctx, -1)`. -/
def duk_is_undefined : DukStack → Bool
  | .undefined :: _ => true
  | _ => false

/-- Engine call `duk_is_object(ctx, -1)`: true for objects, arrays included. -/
def duk_is_object : DukStack → Bool
  | .object _ :: _ => true
  | .array _ :: _ => true
  | _ => false

/-- Engine call `duk_is_array(ctx, -1)`. -/
def duk_is_array : DukStack → Bool
  | .array _ :: _ => true
  | _ => false

/-- Coercion used by `duk_get_int` / `duk_require_int`: NaN gives 0, a value below
`DUK_INT_MIN` gives `DUK_INT_MIN`, a value above `DUK_INT_MAX` gives `DUK_INT_MAX`,
anything else is truncated toward zero. -/
def duk_coerce_d2i : JsDouble → Int
  | .nan => 0
  | .negInf => INT_MIN
  | .posInf => INT_MAX
  | .negZero => 0
  | .finite q =>
    if q < (INT_MIN : ℚ) then INT_MIN
    else if q > (INT_MAX : ℚ) then INT_MAX
    else truncToInt q

/-- Engine call `duk_require_int(ctx, -1)`: the coerced number, an error when the value is not a
number. -/
def duk_require_int : DukStack → Except Failure Int
  | .number d :: _ => .ok (duk_coerce_d2i d)
  | _ => .error .dukError

/-- Engine call `duk_pop(ctx)`: an error on an empty stack. -/
def duk_pop : DukStack → Except Failure DukStack
  | [] => .error .dukError
  | _ :: rest => .ok rest

/-- Engine call `duk_pop_n(ctx, n)`: an error when fewer than `n` values are on the
stack. -/
def duk_pop_n (n : Nat) (st : DukStack) : Except Failure DukStack :=
  if n ≤ st.length then .ok (st.drop n) else .error .dukError

/-- Engine call `duk_safe_to_string(ctx, -1)`: coerces the top value in place; only its
failure on an invalid index is visible here, since the callers pop the slot right after
and the text only goes into the exception message. -/
def duk_safe_to_string : DukStack → Except Failure DukStack
  | [] => .error .dukError
  | st => .ok st

/-- Engine call `duk_get_length(ctx, -1)`: number of elements of an array, length of a
string, 0 for the other values and for an invalid index. -/
def duk_get_length : DukStack → Nat
  | .array elems :: _ => elems.length
  | .string s :: _ => s.length
  | _ => 0

/-- Engine call `duk_get_prop_index(ctx, -1, i)`: pushes element `i` of the array on top,
`undefined` when there is none. Property reads on `null`/`undefined` or an invalid index
are errors; the other values have no indexed elements. -/
def duk_get_prop_index (i : Nat) : DukStack → Except Failure DukStack
  | .array elems :: rest => .ok (elems.getD i .undefined :: .array elems :: rest)
  | [] => .error .dukError
  | .null :: _ => .error .dukError
  | .undefined :: _ => .error .dukError
  | v :: rest => .ok (.undefined :: v :: rest)

/-- Engine call `duk_push_int(ctx, x)`. -/
def duk_push_int (x : Int) (st : DukStack) : DukStack := .number (.ofInt x) :: st

/-- Engine call `duk_push_null(ctx)`. -/
def duk_push_null (st : DukStack) : DukStack := .null :: st

/-- Engine call `duk_push_array(ctx)`: pushes a new empty array. -/
def duk_push_array (st : DukStack) : DukStack := .array [] :: st

/-- Engine call `duk_put_prop_index(ctx, -2, i)`: pops the top value and stores it as
element `i` of the array below it. -/
def duk_put_prop_index (i : Nat) : DukStack → Except Failure DukStack
  | v :: .array elems :: rest => .ok (.array (arraySet .undefined elems i v) :: rest)
  | _ => .error .dukError

/-! ## Duktape backend: `Byte` -/

namespace Byte

/-- Source function `Byte::pop` (Byte.cpp lines 39-54). -/
def pop (st : DukStack) : DukResult JValue :=
  if !duk_is_number st then
    match duk_safe_to_string st with
    | .error e => (.error e, st)
    | .ok st1 =>
      match duk_pop st1 with
      | .error e => (.error e, st1)
      | .ok st2 => (.error .invalidArgument, st2)
  else if duk_is_null_or_undefined st then
    match duk_pop st with
    | .error e => (.error e, st)
    | .ok st1 => (.ok JValue.noValue, st1)
  else
    match duk_require_int st with
    | .error e => (.error e, st)
    | .ok n =>
      let b := toJByte n
      match duk_pop st with
      | .error e => (.error e, st)
      | .ok st1 => (.ok (JValue.byte b), st1)

/-- Number of iterations of `for (int i = count - 1; i >= 0; --i)`: `count - 1` is
computed in `uint32_t` and converted to `int`. -/
def loopIterations (count : Nat) : Nat :=
  let u := (count + 4294967295) % 4294967296
  let i : Int := if u < 2147483648 then (u : Int) else (u : Int) - 4294967296
  (i + 1).toNat

/-- The element loop of `Byte::popArray` (lines 73-86), for the indices `n - 1` down to
`0`; the `catch` pops the array in the non-expanded layout and rethrows. -/
def popArrayLoop (expanded : Bool) : Nat → List Int → DukStack → DukResult (List Int)
  | 0, elements, st => (.ok elements, st)
  | i + 1, elements, st =>
    match (if expanded then Except.ok st else duk_get_prop_index i st) with
    | .error e => (.error e, st)
    | .ok st1 =>
      match pop st1 with
      | (.ok value, st2) => popArrayLoop expanded i (elements.set i value.getByte) st2
      | (.error e, st2) =>
        if e.isStdException && !expanded then
          match duk_pop st2 with
          | .error e2 => (.error e2, st2)
          | .ok st3 => (.error e, st3)
        else (.error e, st2)

/-- Source function `Byte::popArray` (lines 56-93). `allocOk` tells whether the host
gives the new byte array and its elements (`JArrayLocalRef<jbyte>(m_jniContext, count)`
non-null and `getMutableElements()` non-null). -/
def popArray (allocOk : Bool) (count : Nat) (expanded : Bool) (st : DukStack) :
    DukResult JValue :=
  let count := if expanded then count else duk_get_length st % 4294967296
  if !expanded && !duk_is_array st then
    match duk_safe_to_string st with
    | .error e => (.error e, st)
    | .ok st1 =>
      match duk_pop st1 with
      | .error e => (.error e, st1)
      | .ok st2 => (.error .invalidArgument, st2)
  else if !allocOk then
    match duk_pop_n (if expanded then count else 1) st with
    | .error e => (.error e, st)
    | .ok st1 => (.error .jniException, st1)
  else
    match popArrayLoop expanded (loopIterations count) (List.replicate count 0) st with
    | (.error e, st1) => (.error e, st1)
    | (.ok elements, st1) =>
      if !expanded then
        match duk_pop st1 with
        | .error e => (.error e, st1)
        | .ok st2 => (.ok (JValue.byteArray elements), st2)
      else (.ok (JValue.byteArray elements), st1)

/-- Source function `Byte::push` (lines 95-98). -/
def push (value : JValue) (st : DukStack) : DukResult Nat :=
  (.ok 1, duk_push_int value.getByte st)

/-- The loop of `Byte::pushArray` (lines 115-120), from index `i` on, over the elements
not yet pushed. -/
def pushArrayLoop (expand : Bool) : List Int → Nat → DukStack → Except Failure DukStack
  | [], _, st => .ok st
  | x :: xs, i, st =>
    let st1 := duk_push_int x st
    if !expand then
      match duk_put_prop_index i st1 with
      | .error e => .error e
      | .ok st2 => pushArrayLoop expand xs (i + 1) st2
    else pushArrayLoop expand xs (i + 1) st1

/-- Source function `Byte::pushArray` (lines 100-123). `elementsOk` tells whether
`getElements()` gives the elements of the host array `values`. -/
def pushArray (elementsOk : Bool) (values : List Int) (expand : Bool) (st : DukStack) :
    DukResult Nat :=
  let count := values.length
  if !elementsOk then (.error .jniException, st)
  else
    let st0 := if !expand then duk_push_array st else st
    match pushArrayLoop expand values 0 st0 with
    | .error e => (.error e, st0)
    | .ok st1 => (.ok (if expand then count else 1), st1)

end Byte

/-! ## QuickJS backend: engine primitives -/

/-- Script value handle of QuickJS (`JSValue`): the tag and its payload. Numbers carry
either the tag `JS_TAG_INT` with a 32-bit integer or the float64 tag with a double. -/
inductive JSValue where
  | int (i : Int)
  | float64 (d : JsDouble)
  | null
  | undefined
  | bool (b : Bool)
  | string (s : String)
  | object (id : Nat)
  | array (elems : List JSValue)

/-- Engine call `JS_IsNull(v)`. -/
def JS_IsNull : JSValue → Bool
  | .null => true
  | _ => false

/-- Engine call `JS_IsUndefined(v)`. -/
def JS_IsUndefined : JSValue → Bool
  | .undefined => true
  | _ => false

/-- Engine call `JS_IsNumber(v)`: the tag is `JS_TAG_INT` or the float64 tag. -/
def JS_IsNumber : JSValue → Bool
  | .int _ => true
  | .float64 _ => true
  | _ => false

/-- Engine call `JS_IsObject(v)`: true for objects, arrays included. -/
def JS_IsObject : JSValue → Bool
  | .object _ => true
  | .array _ => true
  | _ => false

/-- Engine call `JS_IsArray(ctx, v)`. -/
def JS_IsArray : JSValue → Bool
  | .array _ => true
  | _ => false

/-- Engine call `JS_VALUE_HAS_REF_COUNT(v)`: strings and objects are reference counted,
the immediate values (numbers, booleans, null, undefined) are not. -/
def JS_VALUE_HAS_REF_COUNT : JSValue → Bool
  | .string _ => true
  | .object _ => true
  | .array _ => true
  | _ => false

/-- Engine call `JS_NewInt32(ctx, x)`. -/
def JS_NewInt32 (x : Int) : JSValue := .int x

/-- Engine call `JS_GetPropertyStr(ctx, v, "length")` of an array: its length, held with the integer
tag when it fits 31 bits and as a float64 otherwise; `undefined` for a value without a
length. -/
def JS_GetPropertyStr_length : JSValue → JSValue
  | .array elems =>
    if (elems.length : Int) ≤ INT_MAX then .int elems.length
    else .float64 (.ofInt elems.length)
  | .string s => .int s.length
  | _ => .undefined

/-- Engine call `JS_VALUE_GET_INT(v)`: the integer payload; the macro reads the payload whatever the
tag, which is only meaningful under `JS_TAG_INT` (0 stands for the other tags). -/
def JS_VALUE_GET_INT : JSValue → Int
  | .int i => i
  | _ => 0

/-- Engine call `JS_GetPropertyUint32(ctx, v, i)`: element `i` of an array, `undefined`
when there is none. The caller owns the returned handle. -/
def JS_GetPropertyUint32 (v : JSValue) (i : Nat) : JSValue :=
  match v with
  | .array elems => elems.getD i .undefined
  | _ => .undefined

/-- Engine call `JS_SetPropertyUint32(ctx, a, i, v)`: the array after the store `a[i] = v`. -/
def JS_SetPropertyUint32 (a : JSValue) (i : Nat) (v : JSValue) : JSValue :=
  match a with
  | .array elems => .array (arraySet .undefined elems i v)
  | other => other

/-- Handles a call has obtained from the engine and handles it has passed to
`JS_FreeValue`, in order. -/
structure HandleLog where
  obtained : List JSValue
  freed : List JSValue

/-- Result of a value-based operation that obtains handles from the engine. -/
abbrev QjsResult (α : Type) := Except Failure α × HandleLog

/-! ## QuickJS backend: `Byte` -/

namespace Byte

/-- Conversion `jbyte(d)` for a double: truncation toward zero. When the truncated value
does not fit a `jbyte` the C++ standard leaves the conversion undefined; the result is
then taken from `outOfRange`. -/
def doubleToJByte (outOfRange : JsDouble → Int) (d : JsDouble) : Int :=
  match d with
  | .negZero => 0
  | .finite q =>
    if -128 ≤ truncToInt q ∧ truncToInt q ≤ 127 then truncToInt q
    else toJByte (outOfRange d)
  | other => toJByte (outOfRange other)

/-- Source function `getByte` (Byte.cpp lines 128-139). -/
def getByte (outOfRange : JsDouble → Int) (v : JSValue) : Except Failure Int :=
  match v with
  | .int i => .ok (toJByte i)
  | .float64 d => .ok (doubleToJByte outOfRange d)
  | _ => .error .invalidArgument

/-- Source function `Byte::toJava` (lines 142-148). -/
def toJava (outOfRange : JsDouble → Int) (v : JSValue) : Except Failure JValue :=
  if JS_IsNull v || JS_IsUndefined v then .ok JValue.noValue
  else
    match getByte outOfRange v with
    | .error e => .error e
    | .ok b => .ok (JValue.byte b)

/-- The element loop of `Byte::toJavaArray` (lines 174-177): `fuel` iterations from index
`i` on. Every `JS_GetPropertyUint32` handle is recorded; the loop frees none. -/
def toJavaArrayLoop (outOfRange : JsDouble → Int) (v : JSValue) :
    Nat → Nat → List Int → HandleLog → QjsResult (List Int)
  | 0, _, elements, log => (.ok elements, log)
  | fuel + 1, i, elements, log =>
    let ev := JS_GetPropertyUint32 v i
    let log1 : HandleLog := { log with obtained := log.obtained ++ [ev] }
    match getByte outOfRange ev with
    | .error e => (.error e, log1)
    | .ok b => toJavaArrayLoop outOfRange v fuel (i + 1) (elements.set i b) log1

/-- Source function `Byte::toJavaArray` (lines 150-181). `allocOk` tells whether the host
gives the new byte array and its elements. -/
def toJavaArray (outOfRange : JsDouble → Int) (allocOk : Bool) (v : JSValue) :
    QjsResult JValue :=
  let log0 : HandleLog := { obtained := [], freed := [] }
  if JS_IsNull v || JS_IsUndefined v then (.ok JValue.noValue, log0)
  else if !JS_IsArray v then (.error .invalidArgument, log0)
  else
    let lengthValue := JS_GetPropertyStr_length v
    let count := (JS_VALUE_GET_INT lengthValue % 4294967296).toNat
    let log1 : HandleLog := { obtained := [lengthValue], freed := [lengthValue] }
    if !allocOk then (.error .jniException, log1)
    else
      match toJavaArrayLoop outOfRange v count 0 (List.replicate count 0) log1 with
      | (.error e, log2) => (.error e, log2)
      | (.ok elements, log2) => (.ok (JValue.byteArray elements), log2)

/-- Source function `Byte::fromJava` (lines 183-185). -/
def fromJava (value : JValue) : JSValue := JS_NewInt32 value.getByte

/-- The loop of `Byte::fromJavaArray` (lines 199-202), from index `i` on, over the
elements not yet stored. -/
def fromJavaArrayLoop : List Int → Nat → JSValue → JSValue
  | [], _, jsArray => jsArray
  | x :: xs, i, jsArray =>
    fromJavaArrayLoop xs (i + 1) (JS_SetPropertyUint32 jsArray i (JS_NewInt32 x))

/-- Source function `Byte::fromJavaArray` (lines 187-205). `elementsOk` tells whether
`getElements()` gives the elements of the host array `values`; when it does not, the new
script array is freed and `JniException` is thrown. -/
def fromJavaArray (elementsOk : Bool) (values : List Int) : Except Failure JSValue :=
  let jsArray := JSValue.array []
  if !elementsOk then .error .jniException
  else .ok (fromJavaArrayLoop values 0 jsArray)

/-! ## `Byte::callMethod` (both backends) -/

/-- State of the host runtime that `callMethod` touches: whether a host exception is
pending, and the argument values released so far. -/
structure JniState where
  exceptionPending : Bool
  released : List JValue

/-- Collaborator `JValue::releaseAll(args)`. -/
def releaseAll (args : List JValue) (s : JniState) : JniState :=
  { s with released := s.released ++ args }

/-- Source function `Byte::callMethod` (lines 209-221). `callByteMethodA` is the host invocation
`m_jniContext->callByteMethodA(javaThis, methodId, args)`: it returns a `jbyte` and
leaves the host runtime in a new state. -/
def callMethod (callByteMethodA : JniLocalRef → Nat → List JValue → JniState → Int × JniState)
    (methodId : Nat) (javaThis : JniLocalRef) (args : List JValue) (s : JniState) :
    Except Failure JValue × JniState :=
  let (returnValue, s1) := callByteMethodA javaThis methodId args s
  let s2 := releaseAll args s1
  if s2.exceptionPending then (.error .jniException, s2)
  else (.ok (JValue.byte returnValue), s2)

end Byte

/-! ## `NativeObjectWrapper` -/

namespace NativeObjectWrapper

/-- Collaborators of the Duktape converter, declared outside the two source files: the
`JavaObject` helpers and the two identity-cache lookups of `JniCache`. -/
structure DukCollaborators where
  /-- Collaborator `JavaObject::getJavaThis(ctx, -1)` -/
  getJavaThis : DukStack → JniLocalRef
  /-- Collaborator `JavaObject::push(ctx, "<wrappedNativeObject>", o)` -/
  javaObjectPush : JniLocalRef → DukStack → DukResult Nat
  /-- Collaborator `JniCache::nativeObjectWrapperFromJavaObject(o)` -/
  nativeObjectWrapperFromJavaObject : JniLocalRef → JniLocalRef
  /-- Collaborator `JniCache::getNativeObjectWrapperJavaObject(w)` -/
  getNativeObjectWrapperJavaObject : JniLocalRef → JniLocalRef

/-- Source function `NativeObjectWrapper::pop` (NativeObjectWrapper.cpp lines 40-54). -/
def pop (c : DukCollaborators) (st : DukStack) : DukResult JValue :=
  if !duk_is_object st && !duk_is_undefined st && !duk_is_null st then
    match duk_pop st with
    | .error e => (.error e, st)
    | .ok st1 => (.ok JValue.noValue, st1)
  else
    let javaWrappedObject := c.getJavaThis st
    let javaObject := c.nativeObjectWrapperFromJavaObject javaWrappedObject
    match duk_pop st with
    | .error e => (.error e, st)
    | .ok st1 => (.ok (JValue.localRef javaObject), st1)

/-- Source function `NativeObjectWrapper::push` (lines 56-68). -/
def push (c : DukCollaborators) (value : JValue) (st : DukStack) : DukResult Nat :=
  let javaNativeObjectWrapper := value.getLocalRef
  if javaNativeObjectWrapper.isNone then (.ok 1, duk_push_null st)
  else
    let javaWrappedObject := c.getNativeObjectWrapperJavaObject javaNativeObjectWrapper
    c.javaObjectPush javaWrappedObject st

/-- Collaborators of the QuickJS converter. -/
structure QjsCollaborators where
  /-- Collaborator `JavaObject::getJavaThis(ctx, v)` -/
  getJavaThis : JSValue → JniLocalRef
  /-- Collaborator `JavaObject::create(ctx, "<wrappedNativeObject>", o)` -/
  javaObjectCreate : JniLocalRef → JSValue
  /-- Collaborator `JniCache::nativeObjectWrapperFromJavaObject(o)` -/
  nativeObjectWrapperFromJavaObject : JniLocalRef → JniLocalRef
  /-- Collaborator `JniCache::getNativeObjectWrapperJavaObject(w)` -/
  getNativeObjectWrapperJavaObject : JniLocalRef → JniLocalRef

/-- Source function `NativeObjectWrapper::toJava` (lines 74-83). -/
def toJava (c : QjsCollaborators) (v : JSValue) : Except Failure JValue :=
  if !JS_IsObject v && !JS_IsNull v && !JS_IsUndefined v then .ok JValue.noValue
  else
    let javaWrappedObject := c.getJavaThis v
    let javaObject := c.nativeObjectWrapperFromJavaObject javaWrappedObject
    .ok (JValue.localRef javaObject)

/-- Source function `NativeObjectWrapper::fromJava` (lines 85-94). -/
def fromJava (c : QjsCollaborators) (value : JValue) : JSValue :=
  let javaNativeObjectWrapper := value.getLocalRef
  if javaNativeObjectWrapper.isNone then JSValue.null
  else
    let javaWrappedObject := c.getNativeObjectWrapperJavaObject javaNativeObjectWrapper
    c.javaObjectCreate javaWrappedObject

end NativeObjectWrapper

/-! ## Arithmetic of the numeric conversions -/

theorem truncToInt_intCast (x : Int) : truncToInt (x : ℚ) = x := by
  simp [truncToInt]

theorem toJByte_of_byte (b : Int) (hlo : -128 ≤ b) (hhi : b ≤ 127) : toJByte b = b := by
  unfold toJByte
  omega

theorem toJByte_range (x : Int) : -128 ≤ toJByte x ∧ toJByte x ≤ 127 := by
  unfold toJByte
  omega

theorem duk_coerce_d2i_ofInt (x : Int) (hlo : INT_MIN ≤ x) (hhi : x ≤ INT_MAX) :
    duk_coerce_d2i (JsDouble.ofInt x) = x := by
  have h1 : ¬ ((x : ℚ) < ((INT_MIN : Int) : ℚ)) := by
    rw [not_lt]
    exact_mod_cast hlo
  have h2 : ¬ ((x : ℚ) > ((INT_MAX : Int) : ℚ)) := by
    rw [gt_iff_lt, not_lt]
    exact_mod_cast hhi
  simp only [duk_coerce_d2i, JsDouble.ofInt, h1, h2, if_false, truncToInt_intCast]

theorem doubleToJByte_ofInt (outOfRange : JsDouble → Int) (b : Int) (hlo : -128 ≤ b)
    (hhi : b ≤ 127) : Byte.doubleToJByte outOfRange (JsDouble.ofInt b) = b := by
  simp [Byte.doubleToJByte, JsDouble.ofInt, truncToInt_intCast, hlo, hhi]

/-! ## Scalar conversions of `Byte` -/

theorem Byte.pop_number (d : JsDouble) (rest : DukStack) :
    Byte.pop (DukValue.number d :: rest)
      = (.ok (JValue.byte (toJByte (duk_coerce_d2i d))), rest) := by
  simp [Byte.pop, duk_is_number, duk_is_null_or_undefined, duk_require_int, duk_pop]

theorem Byte.pop_not_number (v : DukValue) (rest : DukStack)
    (h : duk_is_number (v :: rest) = false) :
    Byte.pop (v :: rest) = (.error Failure.invalidArgument, rest) := by
  simp [Byte.pop, h, duk_safe_to_string, duk_pop]

/-- C1. Byte scalar round-trip with signed semantics, on both backends: for a host byte
`b` in `[-128, 127]`, egress writes the script integer `b` itself (Duktape `push` leaves
the number `b` on top and returns 1, QuickJS `fromJava` gives the int-tagged `b`), and
ingress of the script integer `b` gives back the byte `JValue` `b`; so egress after
ingress gives the script integer again and ingress after egress the byte. -/
theorem Byte.scalar_round_trip (outOfRange : JsDouble → Int) (b : Int)
    (hlo : -128 ≤ b) (hhi : b ≤ 127) (st : DukStack) :
    Byte.push (JValue.byte b) st = (.ok 1, DukValue.number (JsDouble.ofInt b) :: st)
    ∧ Byte.pop (DukValue.number (JsDouble.ofInt b) :: st) = (.ok (JValue.byte b), st)
    ∧ Byte.pop (Byte.push (JValue.byte b) st).2 = (.ok (JValue.byte b), st)
    ∧ Byte.fromJava (JValue.byte b) = JSValue.int b
    ∧ Byte.toJava outOfRange (JSValue.int b) = .ok (JValue.byte b)
    ∧ Byte.toJava outOfRange (JSValue.float64 (JsDouble.ofInt b)) = .ok (JValue.byte b)
    ∧ Byte.toJava outOfRange (Byte.fromJava (JValue.byte b)) = .ok (JValue.byte b) := by
  have hc : duk_coerce_d2i (JsDouble.ofInt b) = b :=
    duk_coerce_d2i_ofInt b (by unfold INT_MIN; omega) (by unfold INT_MAX; omega)
  have hb : toJByte b = b := toJByte_of_byte b hlo hhi
  have hd := doubleToJByte_ofInt outOfRange b hlo hhi
  refine ⟨rfl, ?_, ?_, rfl, ?_, ?_, ?_⟩
  · rw [Byte.pop_number, hc, hb]
  · simp only [Byte.push, duk_push_int, JValue.getByte]
    rw [Byte.pop_number, hc, hb]
  · simp [Byte.toJava, Byte.getByte, JS_IsNull, JS_IsUndefined, hb]
  · simp [Byte.toJava, Byte.getByte, JS_IsNull, JS_IsUndefined, hd]
  · simp [Byte.toJava, Byte.fromJava, JS_NewInt32, JValue.getByte, Byte.getByte, JS_IsNull,
      JS_IsUndefined, hb]

/-- Witness of C1 at the host byte `-1`: the script value written is `-1`, not `255`. -/
theorem Byte.scalar_round_trip_witness :
    Byte.push (JValue.byte (-1)) [] = (.ok 1, [DukValue.number (JsDouble.ofInt (-1))])
    ∧ Byte.pop [DukValue.number (JsDouble.ofInt (-1))] = (.ok (JValue.byte (-1)), [])
    ∧ Byte.fromJava (JValue.byte (-1)) = JSValue.int (-1)
    ∧ Byte.toJava (fun _ => 0) (JSValue.int (-1)) = .ok (JValue.byte (-1)) :=
  have h := Byte.scalar_round_trip (fun _ => 0) (-1) (by decide) (by decide) []
  ⟨h.1, h.2.1, h.2.2.2.1, h.2.2.2.2.1⟩

/-- Counterexample to C3 as stated: on QuickJS, `Byte::toJava` of script `null` (and of
`undefined`) raises nothing and returns the no-value `JValue`. -/
theorem Byte.toJava_null_no_failure :
    Byte.toJava (fun _ => 0) JSValue.null = .ok JValue.noValue
    ∧ Byte.toJava (fun _ => 0) JSValue.undefined = .ok JValue.noValue
    ∧ Byte.toJava (fun _ => 0) JSValue.null ≠ .error Failure.invalidArgument := by
  refine ⟨rfl, rfl, ?_⟩
  intro h
  cases h

/-- C3, amended. Duktape `pop`: a number on top yields a byte `JValue`, every other value
(`null` and `undefined` included) raises `std::invalid_argument`, the slot being popped
in both cases. QuickJS `toJava`: a number (int or float64 tag) yields a byte `JValue`,
`null` and `undefined` yield the no-value `JValue` without failure, every other value
raises `std::invalid_argument`. -/
theorem Byte.scalar_ingress_type_check (outOfRange : JsDouble → Int) (v : DukValue)
    (rest : DukStack) (w : JSValue) :
    (duk_is_number (v :: rest) = true →
        ∃ b, Byte.pop (v :: rest) = (.ok (JValue.byte b), rest))
    ∧ (duk_is_number (v :: rest) = false →
        Byte.pop (v :: rest) = (.error Failure.invalidArgument, rest))
    ∧ (JS_IsNumber w = true → ∃ b, Byte.toJava outOfRange w = .ok (JValue.byte b))
    ∧ (JS_IsNull w = true ∨ JS_IsUndefined w = true →
        Byte.toJava outOfRange w = .ok JValue.noValue)
    ∧ (JS_IsNumber w = false → JS_IsNull w = false → JS_IsUndefined w = false →
        Byte.toJava outOfRange w = .error Failure.invalidArgument) := by
  refine ⟨?_, Byte.pop_not_number v rest, ?_, ?_, ?_⟩
  · intro h
    cases v <;> simp [duk_is_number] at h
    exact ⟨_, Byte.pop_number _ rest⟩
  · intro h
    cases w with
    | int i => exact ⟨toJByte i, rfl⟩
    | float64 d => exact ⟨Byte.doubleToJByte outOfRange d, rfl⟩
    | _ => simp [JS_IsNumber] at h
  · intro h
    cases w <;> simp [JS_IsNull, JS_IsUndefined] at h <;>
      simp [Byte.toJava, JS_IsNull, JS_IsUndefined]
  · intro h1 h2 h3
    cases w <;> simp [JS_IsNumber, JS_IsNull, JS_IsUndefined] at h1 h2 h3 <;>
      simp [Byte.toJava, Byte.getByte, JS_IsNull, JS_IsUndefined]

/-- Witness of the amended C3: a string on the Duktape stack and as a QuickJS value is
rejected, the number 65 is accepted. -/
theorem Byte.scalar_ingress_type_check_witness :
    Byte.pop [DukValue.string "a"] = (.error Failure.invalidArgument, [])
    ∧ (∃ b, Byte.toJava (fun _ => 0) (JSValue.int 65) = .ok (JValue.byte b))
    ∧ Byte.toJava (fun _ => 0) (JSValue.string "a") = .error Failure.invalidArgument :=
  ⟨(Byte.scalar_ingress_type_check (fun _ => 0) (DukValue.string "a") []
      (JSValue.string "a")).2.1 rfl,
   (Byte.scalar_ingress_type_check (fun _ => 0) (DukValue.string "a") []
      (JSValue.int 65)).2.2.1 rfl,
   (Byte.scalar_ingress_type_check (fun _ => 0) (DukValue.string "a") []
      (JSValue.string "a")).2.2.2.2 rfl rfl rfl⟩

/-! ## `Byte::callMethod` -/

/-- C8. `Byte::callMethod`: whatever the host invocation does, every argument value has
been released when `callMethod` exits; when a host exception is pending after the
invocation the result is the `JniException` failure and no `JValue`; otherwise the result
is the byte `JValue` holding the byte the host invocation returned. -/
theorem Byte.callMethod_release_and_translate
    (callByteMethodA : JniLocalRef → Nat → List JValue → Byte.JniState → Int × Byte.JniState)
    (methodId : Nat) (javaThis : JniLocalRef) (args : List JValue) (s : Byte.JniState) :
    (Byte.callMethod callByteMethodA methodId javaThis args s).2.released
        = (callByteMethodA javaThis methodId args s).2.released ++ args
    ∧ (Byte.callMethod callByteMethodA methodId javaThis args s).1
        = (if (callByteMethodA javaThis methodId args s).2.exceptionPending
            then .error Failure.jniException
            else .ok (JValue.byte (callByteMethodA javaThis methodId args s).1)) := by
  unfold Byte.callMethod Byte.releaseAll
  rcases callByteMethodA javaThis methodId args s with ⟨returnValue, s1⟩
  constructor
  · dsimp only
    split_ifs <;> rfl
  · dsimp only
    split_ifs <;> rfl

/-! ## `NativeObjectWrapper` -/

/-- Collaborators whose identity cache wraps every host reference, the null one
included, into the wrapper 7. -/
def wrapEverything : NativeObjectWrapper.DukCollaborators where
  getJavaThis := fun _ => none
  javaObjectPush := fun _ st => (.ok 1, DukValue.object 0 :: st)
  nativeObjectWrapperFromJavaObject := fun _ => some 7
  getNativeObjectWrapperJavaObject := fun w => w

/-- The QuickJS counterpart of `wrapEverything`. -/
def wrapEverythingQjs : NativeObjectWrapper.QjsCollaborators where
  getJavaThis := fun _ => none
  javaObjectCreate := fun _ => JSValue.object 0
  nativeObjectWrapperFromJavaObject := fun _ => some 7
  getNativeObjectWrapperJavaObject := fun w => w

/-- Counterexample to C9 as stated: with an identity cache that wraps the null reference
too, ingress of script `null` returns a `JValue` holding the non-null wrapper 7, not the
no-value variant. -/
theorem NativeObjectWrapper.null_ingress_depends_on_collaborators :
    NativeObjectWrapper.pop wrapEverything [DukValue.null]
      = (.ok (JValue.localRef (some 7)), [])
    ∧ NativeObjectWrapper.toJava wrapEverythingQjs JSValue.null
      = .ok (JValue.localRef (some 7)) :=
  ⟨rfl, rfl⟩

/-- C9, amended. Egress of a `JValue` holding the null host reference writes script
`null` as exactly one slot (`push` returns 1 and leaves `null` on top, `fromJava` returns
`JS_NULL`). Ingress of script `null` or `undefined` raises nothing, pops the slot, and
returns the `JValue` holding the reference `nativeObjectWrapperFromJavaObject` gives for
`JavaObject::getJavaThis` of that value. -/
theorem NativeObjectWrapper.null_egress_and_ingress (c : NativeObjectWrapper.DukCollaborators)
    (q : NativeObjectWrapper.QjsCollaborators) (st : DukStack) :
    NativeObjectWrapper.push c (JValue.localRef none) st = (.ok 1, DukValue.null :: st)
    ∧ NativeObjectWrapper.fromJava q (JValue.localRef none) = JSValue.null
    ∧ NativeObjectWrapper.pop c (DukValue.null :: st)
        = (.ok (JValue.localRef (c.nativeObjectWrapperFromJavaObject
            (c.getJavaThis (DukValue.null :: st)))), st)
    ∧ NativeObjectWrapper.pop c (DukValue.undefined :: st)
        = (.ok (JValue.localRef (c.nativeObjectWrapperFromJavaObject
            (c.getJavaThis (DukValue.undefined :: st)))), st)
    ∧ NativeObjectWrapper.toJava q JSValue.null
        = .ok (JValue.localRef (q.nativeObjectWrapperFromJavaObject
            (q.getJavaThis JSValue.null)))
    ∧ NativeObjectWrapper.toJava q JSValue.undefined
        = .ok (JValue.localRef (q.nativeObjectWrapperFromJavaObject
            (q.getJavaThis JSValue.undefined))) :=
  ⟨rfl, rfl, rfl, rfl, rfl, rfl⟩

/-- Counterexample to C10 as stated: ingress of the script number 5 raises no failure; it
returns the no-value `JValue`. -/
theorem NativeObjectWrapper.number_ingress_no_failure :
    NativeObjectWrapper.pop wrapEverything [DukValue.number (JsDouble.ofInt 5)]
      = (.ok JValue.noValue, [])
    ∧ NativeObjectWrapper.toJava wrapEverythingQjs (JSValue.int 5) = .ok JValue.noValue :=
  ⟨rfl, rfl⟩

/-- C10, amended. For every script value that is neither an object nor `null` nor
`undefined`, ingress raises no failure and returns the no-value `JValue`, whatever the
collaborators do; on the stack backend the slot is consumed. -/
theorem NativeObjectWrapper.incompatible_ingress_no_value
    (c : NativeObjectWrapper.DukCollaborators) (q : NativeObjectWrapper.QjsCollaborators)
    (v : DukValue) (rest : DukStack) (w : JSValue)
    (hv : duk_is_object (v :: rest) = false ∧ duk_is_null (v :: rest) = false
      ∧ duk_is_undefined (v :: rest) = false)
    (hw : JS_IsObject w = false ∧ JS_IsNull w = false ∧ JS_IsUndefined w = false) :
    NativeObjectWrapper.pop c (v :: rest) = (.ok JValue.noValue, rest)
    ∧ NativeObjectWrapper.toJava q w = .ok JValue.noValue := by
  obtain ⟨h1, h2, h3⟩ := hv
  obtain ⟨k1, k2, k3⟩ := hw
  constructor
  · simp [NativeObjectWrapper.pop, h1, h2, h3, duk_pop]
  · simp [NativeObjectWrapper.toJava, k1, k2, k3]

/-- Witness of the amended C10 at the script string `"a"`. -/
theorem NativeObjectWrapper.incompatible_ingress_no_value_witness :
    NativeObjectWrapper.pop wrapEverything [DukValue.string "a", DukValue.null]
      = (.ok JValue.noValue, [DukValue.null])
    ∧ NativeObjectWrapper.toJava wrapEverythingQjs (JSValue.string "a")
      = .ok JValue.noValue :=
  NativeObjectWrapper.incompatible_ingress_no_value wrapEverything wrapEverythingQjs
    (DukValue.string "a") [DukValue.null] (JSValue.string "a") ⟨rfl, rfl, rfl⟩
    ⟨rfl, rfl, rfl⟩

/-- Duktape collaborators for which a script object with identifier `k + 1` stands for
the host object `k`, and a wrapper is identified with the object it wraps. -/
def directCollaborators : NativeObjectWrapper.DukCollaborators where
  getJavaThis := fun st =>
    match st with
    | DukValue.object (k + 1) :: _ => some k
    | _ => none
  javaObjectPush := fun o st =>
    match o with
    | some k => (.ok 1, DukValue.object (k + 1) :: st)
    | none => (.ok 1, DukValue.object 0 :: st)
  nativeObjectWrapperFromJavaObject := fun o => o
  getNativeObjectWrapperJavaObject := fun w => w

/-- The QuickJS counterpart of `directCollaborators`. -/
def directCollaboratorsQjs : NativeObjectWrapper.QjsCollaborators where
  getJavaThis := fun v =>
    match v with
    | JSValue.object (k + 1) => some k
    | _ => none
  javaObjectCreate := fun o =>
    match o with
    | some k => JSValue.object (k + 1)
    | none => JSValue.object 0
  nativeObjectWrapperFromJavaObject := fun o => o
  getNativeObjectWrapperJavaObject := fun w => w

/-- C7. Object identity round-trip: let `w` be a non-null wrapper. If `JavaObject::push`
(resp. `create`) produces one script object from which `JavaObject::getJavaThis` reads
back the host object it was given, and `getNativeObjectWrapperJavaObject` undoes
`nativeObjectWrapperFromJavaObject`, then egress of `w` followed by ingress of the
resulting script value yields a wrapper whose wrapped host object is the one `w` wraps;
on the stack backend the stack is back to what it was. -/
theorem NativeObjectWrapper.identity_round_trip
    (c : NativeObjectWrapper.DukCollaborators) (q : NativeObjectWrapper.QjsCollaborators)
    (w : JObject) (st : DukStack)
    (hpush : ∀ o s, ∃ v, c.javaObjectPush o s = (.ok 1, v :: s)
      ∧ duk_is_object (v :: s) = true ∧ c.getJavaThis (v :: s) = o)
    (hcache : ∀ o, c.getNativeObjectWrapperJavaObject
      (c.nativeObjectWrapperFromJavaObject o) = o)
    (hcreate : ∀ o, JS_IsObject (q.javaObjectCreate o) = true
      ∧ q.getJavaThis (q.javaObjectCreate o) = o)
    (hqcache : ∀ o, q.getNativeObjectWrapperJavaObject
      (q.nativeObjectWrapperFromJavaObject o) = o) :
    (∃ w2, (NativeObjectWrapper.push c (JValue.localRef (some w)) st).1 = .ok 1
      ∧ NativeObjectWrapper.pop c (NativeObjectWrapper.push c (JValue.localRef (some w)) st).2
          = (.ok (JValue.localRef w2), st)
      ∧ c.getNativeObjectWrapperJavaObject w2 = c.getNativeObjectWrapperJavaObject (some w))
    ∧ (∃ w2, NativeObjectWrapper.toJava q
          (NativeObjectWrapper.fromJava q (JValue.localRef (some w)))
          = .ok (JValue.localRef w2)
      ∧ q.getNativeObjectWrapperJavaObject w2
          = q.getNativeObjectWrapperJavaObject (some w)) := by
  constructor
  · obtain ⟨v, hv, hobj, hthis⟩ := hpush (c.getNativeObjectWrapperJavaObject (some w)) st
    refine ⟨c.nativeObjectWrapperFromJavaObject
      (c.getNativeObjectWrapperJavaObject (some w)), ?_, ?_, hcache _⟩
    · simp [NativeObjectWrapper.push, JValue.getLocalRef, hv]
    · simp [NativeObjectWrapper.push, JValue.getLocalRef, hv, NativeObjectWrapper.pop, hobj,
        hthis, duk_pop]
  · obtain ⟨hobj, hthis⟩ := hcreate (q.getNativeObjectWrapperJavaObject (some w))
    refine ⟨q.nativeObjectWrapperFromJavaObject
      (q.getNativeObjectWrapperJavaObject (some w)), ?_, hqcache _⟩
    simp [NativeObjectWrapper.fromJava, JValue.getLocalRef, NativeObjectWrapper.toJava, hobj,
      hthis]

/-- Witness of C7: with `directCollaborators`, the wrapper of host object 4 crosses to
script and comes back as a wrapper of host object 4. -/
theorem NativeObjectWrapper.identity_round_trip_witness :
    (∃ w2, (NativeObjectWrapper.push directCollaborators (JValue.localRef (some 4)) []).1
        = .ok 1
      ∧ NativeObjectWrapper.pop directCollaborators
          (NativeObjectWrapper.push directCollaborators (JValue.localRef (some 4)) []).2
          = (.ok (JValue.localRef w2), [])
      ∧ directCollaborators.getNativeObjectWrapperJavaObject w2
          = directCollaborators.getNativeObjectWrapperJavaObject (some 4))
    ∧ (∃ w2, NativeObjectWrapper.toJava directCollaboratorsQjs
          (NativeObjectWrapper.fromJava directCollaboratorsQjs (JValue.localRef (some 4)))
          = .ok (JValue.localRef w2)
      ∧ directCollaboratorsQjs.getNativeObjectWrapperJavaObject w2
          = directCollaboratorsQjs.getNativeObjectWrapperJavaObject (some 4)) :=
  NativeObjectWrapper.identity_round_trip directCollaborators directCollaboratorsQjs 4 []
    (fun o s => by
      cases o with
      | none => exact ⟨DukValue.object 0, rfl, rfl, rfl⟩
      | some k => exact ⟨DukValue.object (k + 1), rfl, rfl, rfl⟩)
    (fun _ => rfl)
    (fun o => by cases o <;> exact ⟨rfl, rfl⟩)
    (fun _ => rfl)

/-! ## Array loops of `Byte` -/

/-- Byte stored for a script number by the Duktape element conversion. -/
def dukByteOf (d : JsDouble) : Int := toJByte (duk_coerce_d2i d)

theorem Byte.loopIterations_eq (n : Nat) (h : n ≤ 2147483648) : Byte.loopIterations n = n := by
  unfold Byte.loopIterations
  dsimp only
  split_ifs <;> omega

theorem take_append_drop_set (xs acc : List Int) (i : Nat) (hi : i < xs.length)
    (hl : acc.length = xs.length) :
    xs.take i ++ (acc.set i xs[i]).drop i = xs.take (i + 1) ++ acc.drop (i + 1) := by
  have hi2 : i < acc.length := by omega
  rw [List.drop_set, if_neg (Nat.lt_irrefl i), List.drop_eq_getElem_cons hi2, Nat.sub_self,
    List.set_cons_zero, List.take_succ, List.getElem?_eq_getElem hi]
  simp only [Option.toList, List.append_assoc, List.singleton_append]

theorem Byte.popArrayLoop_array (ds : List JsDouble) (rest : DukStack) :
    ∀ (n : Nat) (acc : List Int), n ≤ ds.length → acc.length = ds.length →
      Byte.popArrayLoop false n acc (DukValue.array (ds.map DukValue.number) :: rest)
        = (.ok ((ds.map dukByteOf).take n ++ acc.drop n),
            DukValue.array (ds.map DukValue.number) :: rest) := by
  intro n
  induction n with
  | zero => intro acc _ _; simp [Byte.popArrayLoop]
  | succ i ih =>
    intro acc hn hl
    have hi : i < ds.length := by omega
    have hget : (ds.map DukValue.number).getD i DukValue.undefined = DukValue.number ds[i] := by
      rw [List.getD_eq_getElem _ _ (by simpa using hi)]
      simp
    have hi2 : i < (ds.map dukByteOf).length := by simpa using hi
    have hx : (ds.map dukByteOf)[i] = toJByte (duk_coerce_d2i ds[i]) := by
      simp [dukByteOf]
    have hstep := take_append_drop_set (ds.map dukByteOf) acc i hi2 (by simpa using hl)
    rw [hx] at hstep
    simp only [Byte.popArrayLoop, Bool.false_eq_true, if_false, duk_get_prop_index, hget,
      Byte.pop_number, JValue.getByte]
    rw [ih _ (by omega) (by simpa using hl), hstep]

theorem Byte.popArrayLoop_expanded (ds : List JsDouble) (rest : DukStack) :
    ∀ (n : Nat) (acc : List Int), n ≤ ds.length → acc.length = ds.length →
      Byte.popArrayLoop true n acc (((ds.take n).map DukValue.number).reverse ++ rest)
        = (.ok ((ds.map dukByteOf).take n ++ acc.drop n), rest) := by
  intro n
  induction n with
  | zero => intro acc _ _; simp [Byte.popArrayLoop]
  | succ i ih =>
    intro acc hn hl
    have hi : i < ds.length := by omega
    have hi2 : i < (ds.map dukByteOf).length := by simpa using hi
    have hx : (ds.map dukByteOf)[i] = toJByte (duk_coerce_d2i ds[i]) := by
      simp [dukByteOf]
    have hstep := take_append_drop_set (ds.map dukByteOf) acc i hi2 (by simpa using hl)
    rw [hx] at hstep
    have hst : ((ds.take (i + 1)).map DukValue.number).reverse ++ rest
        = DukValue.number ds[i] :: (((ds.take i).map DukValue.number).reverse ++ rest) := by
      have ht : ds.take (i + 1) = ds.take i ++ [ds[i]] := by
        rw [List.take_succ, List.getElem?_eq_getElem hi]
        rfl
      rw [ht]
      simp only [List.map_append, List.map_cons, List.map_nil, List.reverse_append,
        List.reverse_cons, List.reverse_nil, List.nil_append, List.singleton_append,
        List.cons_append]
    rw [hst]
    simp only [Byte.popArrayLoop, if_true, Byte.pop_number, JValue.getByte]
    rw [ih _ (by omega) (by simpa using hl), hstep]

theorem Byte.pushArrayLoop_array :
    ∀ (xs : List Int) (i : Nat) (pre : List DukValue) (rest : DukStack), i = pre.length →
      Byte.pushArrayLoop false xs i (DukValue.array pre :: rest)
        = .ok (DukValue.array (pre ++ xs.map (fun x => DukValue.number (JsDouble.ofInt x)))
            :: rest) := by
  intro xs
  induction xs with
  | nil => intro i pre rest _; simp [Byte.pushArrayLoop]
  | cons x xs ih =>
    intro i pre rest hi
    simp only [Byte.pushArrayLoop, duk_push_int, duk_put_prop_index, arraySet, hi,
      Nat.lt_irrefl, if_false, Nat.sub_self, List.replicate_zero, List.append_nil,
      Bool.not_false, if_true]
    rw [ih (pre.length + 1) (pre ++ [DukValue.number (JsDouble.ofInt x)]) rest (by simp)]
    simp

theorem Byte.pushArrayLoop_expanded :
    ∀ (xs : List Int) (i : Nat) (st : DukStack),
      Byte.pushArrayLoop true xs i st
        = .ok ((xs.map (fun x => DukValue.number (JsDouble.ofInt x))).reverse ++ st) := by
  intro xs
  induction xs with
  | nil => intro i st; simp [Byte.pushArrayLoop]
  | cons x xs ih =>
    intro i st
    simp only [Byte.pushArrayLoop, duk_push_int, Bool.not_true, Bool.false_eq_true, if_false]
    rw [ih]
    simp

theorem Byte.popArray_array (ds : List JsDouble) (rest : DukStack) (count : Nat)
    (h : ds.length < 2147483648) :
    Byte.popArray true count false (DukValue.array (ds.map DukValue.number) :: rest)
      = (.ok (JValue.byteArray (ds.map dukByteOf)), rest) := by
  have hmod : ds.length % 4294967296 = ds.length := Nat.mod_eq_of_lt (by omega)
  have hloop := Byte.popArrayLoop_array ds rest ds.length (List.replicate ds.length 0)
    (Nat.le_refl _) (by simp)
  have hfull : (ds.map dukByteOf).take ds.length ++ (List.replicate ds.length (0 : Int)).drop
      ds.length = ds.map dukByteOf := by
    simp
  rw [hfull] at hloop
  simp only [Byte.popArray, duk_get_length, duk_is_array, List.length_map, hmod,
    Bool.false_eq_true, if_false, Bool.not_false, Bool.not_true, Bool.and_false,
    Byte.loopIterations_eq ds.length (by omega), hloop, if_true, duk_pop]

theorem Byte.popArray_expanded (ds : List JsDouble) (rest : DukStack)
    (h : ds.length < 2147483648) :
    Byte.popArray true ds.length true ((ds.map DukValue.number).reverse ++ rest)
      = (.ok (JValue.byteArray (ds.map dukByteOf)), rest) := by
  have hloop := Byte.popArrayLoop_expanded ds rest ds.length (List.replicate ds.length 0)
    (Nat.le_refl _) (by simp)
  have hfull : (ds.map dukByteOf).take ds.length ++ (List.replicate ds.length (0 : Int)).drop
      ds.length = ds.map dukByteOf := by
    simp
  rw [hfull, List.take_length] at hloop
  simp only [Byte.popArray, if_true, Bool.not_true, Bool.false_and, Bool.false_eq_true,
    if_false, Byte.loopIterations_eq ds.length (by omega), hloop]

theorem dukByteOf_ofInt_map (xs : List Int)
    (h : ∀ x ∈ xs, INT_MIN ≤ x ∧ x ≤ INT_MAX) :
    (xs.map JsDouble.ofInt).map dukByteOf = xs.map toJByte := by
  rw [List.map_map]
  apply List.map_congr_left
  intro x hx
  simp only [Function.comp, dukByteOf, duk_coerce_d2i_ofInt x (h x hx).1 (h x hx).2]

theorem toJByte_map_of_bytes (a : List Int) (h : ∀ b ∈ a, -128 ≤ b ∧ b ≤ 127) :
    a.map toJByte = a := by
  conv_rhs => rw [← List.map_id a]
  apply List.map_congr_left
  intro b hb
  exact toJByte_of_byte b (h b hb).1 (h b hb).2

theorem int32_of_byte_list (a : List Int) (h : ∀ b ∈ a, -128 ≤ b ∧ b ≤ 127) :
    ∀ x ∈ a, INT_MIN ≤ x ∧ x ≤ INT_MAX := by
  intro x hx
  have := h x hx
  unfold INT_MIN INT_MAX
  omega

theorem Byte.pushArray_array (a : List Int) (st : DukStack) :
    Byte.pushArray true a false st
      = (.ok 1, DukValue.array (a.map (fun x => DukValue.number (JsDouble.ofInt x))) :: st) := by
  simp [Byte.pushArray, duk_push_array, Byte.pushArrayLoop_array a 0 [] st rfl]

theorem Byte.pushArray_expanded (a : List Int) (st : DukStack) :
    Byte.pushArray true a true st
      = (.ok a.length,
          (a.map (fun x => DukValue.number (JsDouble.ofInt x))).reverse ++ st) := by
  simp [Byte.pushArray, Byte.pushArrayLoop_expanded a 0 st]

/-! ### QuickJS loops -/

theorem Byte.toJavaArrayLoop_ints (outOfRange : JsDouble → Int) (xs : List Int) :
    ∀ (fuel i : Nat) (acc : List Int) (log : HandleLog), i + fuel = xs.length →
      acc.length = xs.length →
      (Byte.toJavaArrayLoop outOfRange (JSValue.array (xs.map JSValue.int)) fuel i acc log).1
        = .ok (acc.take i ++ (xs.map toJByte).drop i) := by
  intro fuel
  induction fuel with
  | zero =>
    intro i acc log hi hl
    have : i = xs.length := by omega
    subst this
    simp [Byte.toJavaArrayLoop, ← hl]
  | succ fuel ih =>
    intro i acc log hi hl
    have hlt : i < xs.length := by omega
    have hget : JS_GetPropertyUint32 (JSValue.array (xs.map JSValue.int)) i
        = JSValue.int xs[i] := by
      simp only [JS_GetPropertyUint32]
      rw [List.getD_eq_getElem _ _ (by simpa using hlt)]
      simp
    have hlt2 : i < (xs.map toJByte).length := by simpa using hlt
    have hdrop : (xs.map toJByte).drop i = toJByte xs[i] :: (xs.map toJByte).drop (i + 1) := by
      rw [List.drop_eq_getElem_cons hlt2]
      simp
    have htake : (acc.set i (toJByte xs[i])).take (i + 1) = acc.take i ++ [toJByte xs[i]] := by
      rw [List.take_succ, List.getElem?_eq_getElem (by simpa [hl] using hlt)]
      simp only [List.getElem_set_self, Option.toList]
      rw [List.set_take, List.set_eq_of_length_le (by simp)]
    simp only [Byte.toJavaArrayLoop, hget, Byte.getByte]
    rw [ih (i + 1) _ _ (by omega) (by simpa using hl), htake, hdrop]
    simp

theorem Byte.toJavaArray_ints (outOfRange : JsDouble → Int) (xs : List Int)
    (h : xs.length < 2147483648) :
    (Byte.toJavaArray outOfRange true (JSValue.array (xs.map JSValue.int))).1
      = .ok (JValue.byteArray (xs.map toJByte)) := by
  have hlen : JS_GetPropertyStr_length (JSValue.array (xs.map JSValue.int))
      = JSValue.int xs.length := by
    have hle : ((xs.length : Nat) : Int) ≤ INT_MAX := by
      simp only [INT_MAX]
      omega
    simp [JS_GetPropertyStr_length, hle]
  have hcount : (((xs.length : Int)) % 4294967296).toNat = xs.length := by omega
  have hloop := Byte.toJavaArrayLoop_ints outOfRange xs xs.length 0
    (List.replicate xs.length 0) (HandleLog.mk [JSValue.int xs.length] [JSValue.int xs.length])
    (by simp) (by simp)
  simp only [List.take_zero, List.nil_append, List.drop_zero] at hloop
  simp only [Byte.toJavaArray, JS_IsNull, JS_IsUndefined, JS_IsArray, hlen, if_true,
    JS_VALUE_GET_INT, hcount, Bool.or_self, Bool.false_eq_true, if_false, Bool.not_true]
  split
  · rename_i e log2 heq
    rw [heq] at hloop
    cases hloop
  · rename_i els log2 heq
    rw [heq] at hloop
    simp only [Except.ok.injEq] at hloop
    rw [hloop]

theorem Byte.fromJavaArrayLoop_ints :
    ∀ (xs : List Int) (i : Nat) (pre : List JSValue), i = pre.length →
      Byte.fromJavaArrayLoop xs i (JSValue.array pre)
        = JSValue.array (pre ++ xs.map JSValue.int) := by
  intro xs
  induction xs with
  | nil => intro i pre _; simp [Byte.fromJavaArrayLoop]
  | cons x xs ih =>
    intro i pre hi
    simp only [Byte.fromJavaArrayLoop, JS_SetPropertyUint32, JS_NewInt32, arraySet, hi,
      Nat.lt_irrefl, if_false, Nat.sub_self, List.replicate_zero, List.append_nil]
    rw [ih (pre.length + 1) (pre ++ [JSValue.int x]) (by simp)]
    simp

theorem Byte.fromJavaArray_ints (a : List Int) :
    Byte.fromJavaArray true a = .ok (JSValue.array (a.map JSValue.int)) := by
  simp [Byte.fromJavaArray, Byte.fromJavaArrayLoop_ints a 0 [] rfl]

/-! ## Array conversions of `Byte`: the claims -/

/-- Counterexample to C2 as stated: on Duktape the script array `[2147483648]` is
ingressed as the host bytes `[-1]`, because `duk_require_int` clamps the number to
`DUK_INT_MAX` before the narrowing cast, whereas wraparound of 2147483648 gives 0. -/
theorem Byte.popArray_clamps_large_number :
    Byte.popArray true 0 false [DukValue.array [DukValue.number (JsDouble.ofInt 2147483648)]]
      = (.ok (JValue.byteArray [-1]), [])
    ∧ (2147483648 + 128) % 256 - 128 = (0 : Int) := by
  constructor
  · have h := Byte.popArray_array [JsDouble.ofInt 2147483648] [] 0 (by simp)
    have hb : dukByteOf (JsDouble.ofInt 2147483648) = -1 := by
      simp only [dukByteOf, duk_coerce_d2i, JsDouble.ofInt, INT_MIN, INT_MAX]
      norm_num [toJByte]
    simpa [hb] using h
  · decide

/-- C2, amended. For every script array of fewer than 2^31 elements that are integral
script numbers within the signed 32-bit range (on QuickJS: held with the integer tag),
non-expanded array ingress returns, when the host provides the byte array, a host byte
array whose element `i` is `((x_i + 128) mod 256) - 128`, in the same order. -/
theorem Byte.array_ingress_wraps (outOfRange : JsDouble → Int) (xs : List Int)
    (rest : DukStack) (count : Nat) (hlen : xs.length < 2147483648)
    (hrange : ∀ x ∈ xs, -2147483648 ≤ x ∧ x ≤ 2147483647) :
    Byte.popArray true count false
        (DukValue.array (xs.map (fun x => DukValue.number (JsDouble.ofInt x))) :: rest)
      = (.ok (JValue.byteArray (xs.map (fun x => (x + 128) % 256 - 128))), rest)
    ∧ (Byte.toJavaArray outOfRange true (JSValue.array (xs.map JSValue.int))).1
      = .ok (JValue.byteArray (xs.map (fun x => (x + 128) % 256 - 128))) := by
  constructor
  · have h := Byte.popArray_array (xs.map JsDouble.ofInt) rest count (by simpa using hlen)
    rw [dukByteOf_ofInt_map xs hrange, List.map_map] at h
    exact h
  · exact Byte.toJavaArray_ints outOfRange xs hlen

/-- Witness of the amended C2: the script array `[1, 2, 300]` is ingressed as the host
bytes `[1, 2, 44]` on both backends. -/
theorem Byte.array_ingress_wraps_witness :
    Byte.popArray true 0 false
        [DukValue.array [DukValue.number (JsDouble.ofInt 1), DukValue.number (JsDouble.ofInt 2),
          DukValue.number (JsDouble.ofInt 300)]]
      = (.ok (JValue.byteArray [1, 2, 44]), [])
    ∧ (Byte.toJavaArray (fun _ => 0) true
        (JSValue.array [JSValue.int 1, JSValue.int 2, JSValue.int 300])).1
      = .ok (JValue.byteArray [1, 2, 44]) :=
  Byte.array_ingress_wraps (fun _ => 0) [1, 2, 300] [] 0 (by decide) (by decide)

/-- C6. Byte array round-trip preserving element order: for every host byte array `a`
(fewer than 2^31 elements, each in `[-128, 127]`; the empty array included), when the
host provides the array storage, array egress followed by array ingress with the same
layout flag returns the host byte array `a` and restores the stack. In the expanded
layout egress leaves the elements as `a.length` consecutive slots, element `i` being the
`i`-th from the bottom. -/
theorem Byte.array_round_trip (outOfRange : JsDouble → Int) (a : List Int) (st : DukStack)
    (hlen : a.length < 2147483648) (hbytes : ∀ b ∈ a, -128 ≤ b ∧ b ≤ 127) :
    ((Byte.pushArray true a false st).1 = .ok 1
      ∧ Byte.popArray true a.length false (Byte.pushArray true a false st).2
          = (.ok (JValue.byteArray a), st))
    ∧ (Byte.pushArray true a true st
          = (.ok a.length,
              (a.map (fun x => DukValue.number (JsDouble.ofInt x))).reverse ++ st)
      ∧ Byte.popArray true a.length true (Byte.pushArray true a true st).2
          = (.ok (JValue.byteArray a), st))
    ∧ (∃ v, Byte.fromJavaArray true a = .ok v
      ∧ (Byte.toJavaArray outOfRange true v).1 = .ok (JValue.byteArray a)) := by
  have hdb : (a.map JsDouble.ofInt).map dukByteOf = a := by
    rw [dukByteOf_ofInt_map a (int32_of_byte_list a hbytes), toJByte_map_of_bytes a hbytes]
  have hmm : a.map (fun x => DukValue.number (JsDouble.ofInt x))
      = (a.map JsDouble.ofInt).map DukValue.number := by
    rw [List.map_map]
    rfl
  refine ⟨⟨?_, ?_⟩, ⟨Byte.pushArray_expanded a st, ?_⟩, ?_⟩
  · rw [Byte.pushArray_array]
  · rw [Byte.pushArray_array, hmm]
    have h := Byte.popArray_array (a.map JsDouble.ofInt) st a.length (by simpa using hlen)
    rw [hdb] at h
    exact h
  · rw [Byte.pushArray_expanded, hmm]
    have h := Byte.popArray_expanded (a.map JsDouble.ofInt) st (by simpa using hlen)
    rw [hdb, List.length_map] at h
    exact h
  · refine ⟨_, Byte.fromJavaArray_ints a, ?_⟩
    rw [Byte.toJavaArray_ints outOfRange a hlen, toJByte_map_of_bytes a hbytes]

/-- Witness of C6 at the host byte array `[-128, 0, 127]` and at the empty array. -/
theorem Byte.array_round_trip_witness :
    (Byte.popArray true 3 true (Byte.pushArray true [-128, 0, 127] true []).2
        = (.ok (JValue.byteArray [-128, 0, 127]), [])
      ∧ Byte.popArray true 3 false (Byte.pushArray true [-128, 0, 127] false []).2
        = (.ok (JValue.byteArray [-128, 0, 127]), []))
    ∧ Byte.popArray true 0 true (Byte.pushArray true [] true []).2
        = (.ok (JValue.byteArray []), []) :=
  ⟨⟨(Byte.array_round_trip (fun _ => 0) [-128, 0, 127] [] (by decide) (by decide)).2.1.2,
    (Byte.array_round_trip (fun _ => 0) [-128, 0, 127] [] (by decide) (by decide)).1.2⟩,
   (Byte.array_round_trip (fun _ => 0) [] [] (by decide) (by decide)).2.1.2⟩

/-- C5, the two failing inputs. Duktape, expanded layout, three element slots of which the
middle one is the string `"x"`: `popArray` raises `std::invalid_argument` having popped
two slots only, element 0 is still on the stack. QuickJS, the array `[1, "x"]`:
`toJavaArray` raises `std::invalid_argument` and has freed none of the two element
handles it obtained (the only freed handle is the one of `length`), the reference counted
string among them. -/
theorem Byte.array_failure_leaves_engine_state :
    Byte.popArray true 3 true
        [DukValue.number (JsDouble.ofInt 3), DukValue.string "x",
          DukValue.number (JsDouble.ofInt 1)]
      = (.error Failure.invalidArgument, [DukValue.number (JsDouble.ofInt 1)])
    ∧ (Byte.toJavaArray (fun _ => 0) true
        (JSValue.array [JSValue.int 1, JSValue.string "x"])).1
      = .error Failure.invalidArgument
    ∧ (Byte.toJavaArray (fun _ => 0) true
        (JSValue.array [JSValue.int 1, JSValue.string "x"])).2.obtained
      = [JSValue.int 2, JSValue.int 1, JSValue.string "x"]
    ∧ (Byte.toJavaArray (fun _ => 0) true
        (JSValue.array [JSValue.int 1, JSValue.string "x"])).2.freed
      = [JSValue.int 2]
    ∧ JS_VALUE_HAS_REF_COUNT (JSValue.string "x") = true :=
  ⟨rfl, rfl, rfl, rfl, rfl⟩

/-! ## Slot balance of the stack-based `Byte` converter -/

theorem Byte.pop_cons_snd (v : DukValue) (rest : DukStack) : (Byte.pop (v :: rest)).2 = rest := by
  cases v <;> first
    | exact congrArg Prod.snd (Byte.pop_number _ _)
    | exact congrArg Prod.snd (Byte.pop_not_number _ _ (by rfl))

theorem Byte.pop_ok_depth (st st2 : DukStack) (value : JValue)
    (h : Byte.pop st = (.ok value, st2)) : st2.length + 1 = st.length := by
  cases st with
  | nil => simp [Byte.pop, duk_is_number, duk_safe_to_string] at h
  | cons v rest =>
    have h2 := Byte.pop_cons_snd v rest
    rw [h] at h2
    simp only at h2
    simp [h2]

theorem duk_get_prop_index_depth (i : Nat) (st st1 : DukStack)
    (h : duk_get_prop_index i st = .ok st1) : st1.length = st.length + 1 := by
  unfold duk_get_prop_index at h
  split at h <;> simp at h <;> (subst h; simp)

theorem duk_pop_depth (st st1 : DukStack) (h : duk_pop st = .ok st1) :
    st1.length + 1 = st.length := by
  cases st with
  | nil => cases h
  | cons v rest =>
    injection h with h
    subst h
    simp

theorem Byte.popArrayLoop_ok_depth (expanded : Bool) :
    ∀ (n : Nat) (acc : List Int) (st : DukStack) (els : List Int) (st2 : DukStack),
      Byte.popArrayLoop expanded n acc st = (.ok els, st2) →
      st2.length + (if expanded then n else 0) = st.length := by
  intro n
  induction n with
  | zero =>
    intro acc st els st2 h
    simp only [Byte.popArrayLoop, Prod.mk.injEq] at h
    rw [h.2]
    cases expanded <;> simp
  | succ i ih =>
    intro acc st els st2 h
    simp only [Byte.popArrayLoop] at h
    split at h
    · cases h
    · rename_i st1 hget
      have hst1 : st1.length = st.length + (if expanded then 0 else 1) := by
        cases expanded
        · simpa using duk_get_prop_index_depth i st st1 hget
        · simp only [if_true] at hget
          injection hget with hget
          simp [hget]
      split at h
      · rename_i value st3 hpop
        have h3 := Byte.pop_ok_depth st1 st3 value hpop
        have h4 := ih _ _ _ _ h
        cases expanded <;> simp at hst1 h4 ⊢ <;> omega
      · rename_i e st3 hpop
        split at h
        · split at h <;> cases h
        · cases h

theorem Byte.popArray_ok_depth (allocOk : Bool) (count : Nat) (expanded : Bool)
    (st st2 : DukStack) (value : JValue) (hcount : count ≤ 2147483648)
    (h : Byte.popArray allocOk count expanded st = (.ok value, st2)) :
    st2.length + (if expanded then count else 1) = st.length := by
  simp only [Byte.popArray] at h
  split at h
  · split at h
    · cases h
    · split at h <;> cases h
  · split at h
    · split at h <;> cases h
    · split at h
      · cases h
      · rename_i els st1 hloop
        have hd := Byte.popArrayLoop_ok_depth expanded _ _ _ _ _ hloop
        cases expanded
        · simp only [Bool.not_false, if_true] at h
          split at h
          · cases h
          · rename_i st3 hpop
            have h5 := duk_pop_depth _ _ hpop
            simp only [Prod.mk.injEq] at h
            rw [← h.2]
            simp at hd ⊢
            omega
        · simp only [Bool.not_true, Bool.false_eq_true, if_false, Prod.mk.injEq] at h
          rw [← h.2]
          simp only [if_true] at hd ⊢
          rw [Byte.loopIterations_eq count hcount] at hd
          exact hd

/-- C4. Slot balance of the stack-based `Byte` converter. (i) `pop` removes exactly the
top slot, whether it returns a byte or raises `std::invalid_argument`. (ii) `push` adds
one slot and returns 1. (iii) `pushArray` of a host array of length `n` returns 1 and
adds one slot in the one-array layout, returns `n` and adds `n` slots in the expanded
layout. (iv) `popArray` removes one slot (one-array layout) or `count` slots (expanded
layout, `count` slots being on the stack) when the value is not an array, when the host
array cannot be allocated, and whenever it returns a value. -/
theorem Byte.slot_balance (v : DukValue) (rest st : DukStack) (value : JValue)
    (a : List Int) (allocOk : Bool) (count : Nat) (expanded : Bool) (elems : List DukValue) :
    ((Byte.pop (v :: rest)).2 = rest
      ∧ ((Byte.pop (v :: rest)).1 = .error Failure.invalidArgument
          ∨ ∃ b, (Byte.pop (v :: rest)).1 = .ok (JValue.byte b)))
    ∧ ((Byte.push value st).1 = .ok 1 ∧ (Byte.push value st).2.length = st.length + 1)
    ∧ ((Byte.pushArray true a false st).1 = .ok 1
      ∧ (Byte.pushArray true a false st).2.length = st.length + 1
      ∧ (Byte.pushArray true a true st).1 = .ok a.length
      ∧ (Byte.pushArray true a true st).2.length = st.length + a.length)
    ∧ ((duk_is_array (v :: rest) = false →
          Byte.popArray allocOk count false (v :: rest)
            = (.error Failure.invalidArgument, rest))
      ∧ Byte.popArray false count false (DukValue.array elems :: rest)
          = (.error Failure.jniException, rest)
      ∧ (count ≤ st.length →
          Byte.popArray false count true st = (.error Failure.jniException, st.drop count)
          ∧ (st.drop count).length + count = st.length)
      ∧ (count ≤ 2147483648 → ∀ r st2,
          Byte.popArray allocOk count expanded st = (.ok r, st2) →
          st2.length + (if expanded then count else 1) = st.length)) := by
  refine ⟨⟨Byte.pop_cons_snd v rest, ?_⟩, ⟨rfl, by simp [Byte.push, duk_push_int]⟩,
    ⟨?_, ?_, ?_, ?_⟩, ⟨?_, ?_, ?_, ?_⟩⟩
  · cases v <;> first
      | exact Or.inr ⟨_, congrArg Prod.fst (Byte.pop_number _ _)⟩
      | exact Or.inl (congrArg Prod.fst (Byte.pop_not_number _ _ (by rfl)))
  · rw [Byte.pushArray_array]
  · rw [Byte.pushArray_array]
    simp
  · rw [Byte.pushArray_expanded]
  · rw [Byte.pushArray_expanded]
    simp [Nat.add_comm]
  · intro h
    simp [Byte.popArray, h, duk_safe_to_string, duk_pop]
  · simp [Byte.popArray, duk_is_array, duk_pop_n]
  · intro h
    constructor
    · simp [Byte.popArray, duk_pop_n, h]
    · simp only [List.length_drop]
      omega
  · intro hc r st2 h
    exact Byte.popArray_ok_depth allocOk count expanded st st2 r hc h

/-- Witness of C4: a successful expanded `popArray` of two slots above a third value, the
alloc-failure path on the same stack, and the not-an-array path. -/
theorem Byte.slot_balance_witness :
    Byte.popArray true 7 false [DukValue.null, DukValue.boolean true]
        = (.error Failure.invalidArgument, [DukValue.boolean true])
    ∧ Byte.popArray false 2 true
        [DukValue.number (JsDouble.ofInt 2), DukValue.number (JsDouble.ofInt 1), DukValue.null]
        = (.error Failure.jniException, [DukValue.null])
    ∧ ([DukValue.null] : DukStack).length + (if true then 2 else 1)
        = [DukValue.number (JsDouble.ofInt 2), DukValue.number (JsDouble.ofInt 1),
            DukValue.null].length :=
  have h := Byte.slot_balance DukValue.null [DukValue.boolean true]
    [DukValue.number (JsDouble.ofInt 2), DukValue.number (JsDouble.ofInt 1), DukValue.null]
    JValue.noValue [] true 2 true []
  have h7 := Byte.slot_balance DukValue.null [DukValue.boolean true] [] JValue.noValue [] true
    7 false []
  ⟨h7.2.2.2.1 rfl, (h.2.2.2.2.2.1 (by decide)).1,
    h.2.2.2.2.2.2 (by decide) (JValue.byteArray [toJByte (duk_coerce_d2i (JsDouble.ofInt 1)),
      toJByte (duk_coerce_d2i (JsDouble.ofInt 2))]) [DukValue.null] rfl⟩

end JsBridge
